import Mathlib

/-!
# Verification of the Knut financial-records backend (src/app/app.py)

A shallow embedding of the single-file Flask application. The persistent
store (SQLAlchemy over SQLite) is modelled as in-memory lists with
auto-incrementing integer primary keys; each HTTP handler becomes a pure
function from the request data and the current store to a response and the
next store. `created_at` timestamps (wall-clock values never inspected by
any handler) are elided. The numeric record columns (`db.Float`) are
modelled as `Int`: no handler performs arithmetic on them, they are only
stored, compared and echoed back.
-/

namespace Knut

/-- `class User(db.Model)`: id (primary key), name, email (unique),
password (the bcrypt hash), role (stored string, default `"user"`;
the source comment documents it as `'user' or 'admin'`). -/
structure User where
  id : Nat
  name : String
  email : String
  password : String
  role : String
deriving Repr, DecidableEq

/-- `class FinancialRecord(db.Model)`: id (primary key), user_id
(foreign key column; SQLite does not enforce it by default, and the API
never checks it), month, year, and the six numeric columns. -/
structure FinancialRecord where
  id : Nat
  user_id : Int
  month : String
  year : Int
  paid_in : Int
  balance : Int
  loaned : Int
  repaid : Int
  shares : Int
  interest : Int
deriving Repr, DecidableEq

/-- The persistent store: the two tables plus the next auto-increment
primary key for each. -/
structure AppState where
  users : List User
  records : List FinancialRecord
  nextUserId : Nat
  nextRecordId : Nat
deriving Repr, DecidableEq

def emptyState : AppState := ⟨[], [], 1, 1⟩

/-- The JWT payload: `create_access_token(identity={'id': ..., 'role': ...})`. -/
structure Identity where
  id : Nat
  role : String
deriving Repr, DecidableEq

/-- The record shape echoed by `GET /api/records`: every column except
`user_id` and `created_at`. -/
structure RecordOut where
  id : Nat
  month : String
  year : Int
  paid_in : Int
  balance : Int
  loaned : Int
  repaid : Int
  shares : Int
  interest : Int
deriving Repr, DecidableEq

/-- The user shape echoed by `GET /api/admin/users`. -/
structure UserOut where
  id : Nat
  name : String
  email : String
  role : String
deriving Repr, DecidableEq

/-- JSON response bodies produced by the handlers. -/
inductive Body where
  | msg (s : String)
  | tokenAndRole (payload : Identity) (role : String)
  | records (rs : List RecordOut)
  | users (us : List UserOut)
  | graph (labels : List String) (values : List Int)
deriving Repr, DecidableEq

/-- An HTTP response: status code and JSON body. -/
structure Response where
  status : Nat
  body : Body
deriving Repr, DecidableEq

/-- The credential presented on a request: no Authorization header, a
token that fails verification, or a token whose signature and expiry
check out and whose payload is `ident`. -/
inductive Auth where
  | missing
  | invalid
  | valid (ident : Identity)
deriving Repr, DecidableEq

/-- Modelled from the spec: the `@jwt_required()` middleware
(flask_jwt_extended, library code outside this repository). A missing,
unparseable, forged or expired credential is rejected with
`Unauthorized` (401) and the request never reaches the handler; a valid
credential exposes its `{user_id, role}` payload to the handler. -/
def jwtRequired (auth : Auth) (s : AppState)
    (handler : Identity → Response × AppState) : Response × AppState :=
  match auth with
  | .valid ident => handler ident
  | .missing => (⟨401, .msg "Unauthorized"⟩, s)
  | .invalid => (⟨401, .msg "Unauthorized"⟩, s)

/-- Request body of `POST /api/register`; `role` is `data.get('role', 'user')`,
so it is optional, every other field is required. -/
structure RegisterBody where
  name : String
  email : String
  password : String
  role : Option String
deriving Repr, DecidableEq

/-- Request body of `POST /api/login`. -/
structure LoginBody where
  email : String
  password : String
deriving Repr, DecidableEq

/-- Request body of `POST /api/records` and `POST /api/admin/records`.
`user_id` is read only by the admin route (`data['user_id']`, required
there); the user route never reads it. -/
structure RecordBody where
  user_id : Option Int
  month : String
  year : Int
  paid_in : Int
  balance : Int
  loaned : Int
  repaid : Int
  shares : Int
  interest : Int
deriving Repr, DecidableEq

/-- `register` (POST /api/register): hash the password, build the new
`User` with `role = data.get('role', 'user')`, and commit. The route has
no error handling: when the email already exists the `unique=True`
constraint makes the commit raise `IntegrityError`, which Flask turns
into an unhandled 500 response, leaving the table unchanged.
`bcrypt.generate_password_hash` is salted and nondeterministic, so the
hasher is a parameter. -/
def register (hashPw : String → String) (s : AppState) (b : RegisterBody) :
    Response × AppState :=
  let hashed := hashPw b.password
  let newUser : User :=
    { id := s.nextUserId, name := b.name, email := b.email,
      password := hashed, role := b.role.getD "user" }
  if s.users.any (fun u => u.email == b.email) then
    (⟨500, .msg "Internal Server Error"⟩, s)
  else
    (⟨201, .msg "User registered successfully!"⟩,
     { s with users := s.users ++ [newUser], nextUserId := s.nextUserId + 1 })

/-- `login` (POST /api/login): `User.query.filter_by(email=...).first()`,
then `bcrypt.check_password_hash(user.password, data['password'])`; on
success issue a token over `{'id': user.id, 'role': user.role}`, on any
failure return the one generic 401. `checkPw hash plain` stands for
`bcrypt.check_password_hash(hash, plain)`. -/
def login (checkPw : String → String → Bool) (s : AppState) (b : LoginBody) :
    Response × AppState :=
  match s.users.find? (fun u => u.email == b.email) with
  | some user =>
      if checkPw user.password b.password then
        (⟨200, .tokenAndRole ⟨user.id, user.role⟩ user.role⟩, s)
      else
        (⟨401, .msg "Invalid credentials"⟩, s)
  | none => (⟨401, .msg "Invalid credentials"⟩, s)

/-- Projection used by `get_records`'s list comprehension. -/
def recordOut (r : FinancialRecord) : RecordOut :=
  ⟨r.id, r.month, r.year, r.paid_in, r.balance, r.loaned, r.repaid,
   r.shares, r.interest⟩

/-- `get_records` (GET /api/records): the caller's records, i.e.
`FinancialRecord.query.filter_by(user_id=current_user['id']).all()`,
projected through the list comprehension. -/
def get_records (s : AppState) (ident : Identity) : Response × AppState :=
  let records := s.records.filter (fun r => r.user_id == (ident.id : Int))
  (⟨200, .records (records.map recordOut)⟩, s)

/-- `add_record` (POST /api/records): inserts a record whose `user_id`
is the token identity's id; the request body's `user_id` key is never
read. -/
def add_record (s : AppState) (ident : Identity) (b : RecordBody) :
    Response × AppState :=
  let newRecord : FinancialRecord :=
    { id := s.nextRecordId, user_id := (ident.id : Int), month := b.month,
      year := b.year, paid_in := b.paid_in, balance := b.balance,
      loaned := b.loaned, repaid := b.repaid, shares := b.shares,
      interest := b.interest }
  (⟨201, .msg "Record added successfully!"⟩,
   { s with records := s.records ++ [newRecord],
            nextRecordId := s.nextRecordId + 1 })

/-- The label `f"{record.month} {record.year}"`. -/
def monthYear (r : FinancialRecord) : String :=
  r.month ++ " " ++ toString r.year

/-- The `for record in records` loop of `get_graph_data`: the two
accumulators start empty; a record whose label is already in `labels`
is skipped, otherwise its label and its `paid_in` are appended. -/
def graphLoop : List FinancialRecord → List String → List Int →
    List String × List Int
  | [], labels, values => (labels, values)
  | r :: rs, labels, values =>
      if labels.contains (monthYear r) then
        graphLoop rs labels values
      else
        graphLoop rs (labels ++ [monthYear r]) (values ++ [r.paid_in])

/-- `get_graph_data` (GET /api/graph-data): the caller's records in
stored order, deduplicated by first occurrence of each month-year
label. -/
def get_graph_data (s : AppState) (ident : Identity) : Response × AppState :=
  let records := s.records.filter (fun r => r.user_id == (ident.id : Int))
  let lv := graphLoop records [] []
  (⟨200, .graph lv.1 lv.2⟩, s)

/-- `db.session.delete(record)` for the row returned by `.first()`:
removes the first (and, ids being primary keys, only) row matching the
predicate. -/
def deleteFirst (p : FinancialRecord → Bool) :
    List FinancialRecord → List FinancialRecord
  | [] => []
  | r :: rs => if p r then rs else r :: deleteFirst p rs

/-- `delete_record` (DELETE /api/records/<int:id>): looks the row up by
`filter_by(id=id, user_id=current_user['id'])` — both the route id and
the caller's own id must match, with no role exemption — deletes it if
found, else 404. -/
def delete_record (s : AppState) (ident : Identity) (id : Nat) :
    Response × AppState :=
  let p : FinancialRecord → Bool :=
    fun r => r.id == id && r.user_id == (ident.id : Int)
  match s.records.find? p with
  | some _ =>
      (⟨200, .msg "Record deleted successfully!"⟩,
       { s with records := deleteFirst p s.records })
  | none => (⟨404, .msg "Record not found"⟩, s)

/-- `get_all_users` (GET /api/admin/users): the in-handler role gate,
then all users projected to `{id, name, email, role}`. -/
def get_all_users (s : AppState) (ident : Identity) : Response × AppState :=
  if ident.role != "admin" then
    (⟨403, .msg "Access denied"⟩, s)
  else
    (⟨200, .users (s.users.map fun u => ⟨u.id, u.name, u.email, u.role⟩)⟩, s)

/-- `admin_add_record` (POST /api/admin/records): the in-handler role
gate, then an insert whose `user_id` is `data['user_id']` taken verbatim
— no check that such a user exists. A body without the key makes
`data['user_id']` raise `KeyError`, an unhandled 500. -/
def admin_add_record (s : AppState) (ident : Identity) (b : RecordBody) :
    Response × AppState :=
  if ident.role != "admin" then
    (⟨403, .msg "Access denied"⟩, s)
  else
    match b.user_id with
    | none => (⟨500, .msg "Internal Server Error"⟩, s)
    | some uid =>
        let newRecord : FinancialRecord :=
          { id := s.nextRecordId, user_id := uid, month := b.month,
            year := b.year, paid_in := b.paid_in, balance := b.balance,
            loaned := b.loaned, repaid := b.repaid, shares := b.shares,
            interest := b.interest }
        (⟨201, .msg "Record added successfully!"⟩,
         { s with records := s.records ++ [newRecord],
                  nextRecordId := s.nextRecordId + 1 })

/-! The routed endpoints: each `@jwt_required()` route is the middleware
composed with its handler. -/

def GET_records (auth : Auth) (s : AppState) : Response × AppState :=
  jwtRequired auth s (fun ident => get_records s ident)

def POST_records (auth : Auth) (s : AppState) (b : RecordBody) :
    Response × AppState :=
  jwtRequired auth s (fun ident => add_record s ident b)

def GET_graph_data (auth : Auth) (s : AppState) : Response × AppState :=
  jwtRequired auth s (fun ident => get_graph_data s ident)

def DELETE_record (auth : Auth) (s : AppState) (id : Nat) :
    Response × AppState :=
  jwtRequired auth s (fun ident => delete_record s ident id)

def GET_admin_users (auth : Auth) (s : AppState) : Response × AppState :=
  jwtRequired auth s (fun ident => get_all_users s ident)

def POST_admin_records (auth : Auth) (s : AppState) (b : RecordBody) :
    Response × AppState :=
  jwtRequired auth s (fun ident => admin_add_record s ident b)

/-! Reference formulation of the graph-data aggregation rule, written from
the spec's words, to be compared with `graphLoop` taken from the source. -/

/-- Modelled from the spec: walking the records in stored order, the
distinct month-year labels in order of first occurrence, skipping any
label already `seen`. -/
def specLabels (seen : List String) : List FinancialRecord → List String
  | [] => []
  | r :: rs =>
      if seen.contains (monthYear r) then specLabels seen rs
      else monthYear r :: specLabels (seen ++ [monthYear r]) rs

/-- Modelled from the spec: the `paid_in` of the first stored record
carrying the given month-year label ("that record's paid_in value" for
the record that introduced the label; later records sharing the label
contribute nothing). -/
def firstPaidIn (rs : List FinancialRecord) (l : String) : Int :=
  ((rs.find? (fun r => monthYear r == l)).map (fun r => r.paid_in)).getD 0

/-! Concrete fixtures used by witnesses and counterexamples. -/

/-- A deterministic stand-in for the (salted, nondeterministic) bcrypt
hasher, used only to instantiate theorems at concrete inputs. -/
def sampleHash (p : String) : String := "h" ++ p

/-- The matching stand-in for `bcrypt.check_password_hash`. -/
def sampleCheck (digest plain : String) : Bool := digest == sampleHash plain

def sampleBody : RecordBody := ⟨some 7, "Jan", 2024, 100, 20, 3, 4, 5, 6⟩

def sampleUser : User := ⟨1, "Alice", "a@x.com", "hpw", "user"⟩

/-- A store holding just `sampleUser`. -/
def sampleState : AppState := ⟨[sampleUser], [], 2, 1⟩

/-- A second user, and one record with id 5 owned by user 1. -/
def deleteState : AppState :=
  ⟨[sampleUser, ⟨2, "Bob", "b@x.com", "hq", "user"⟩],
   [⟨5, 1, "Jan", 2024, 1, 2, 3, 4, 5, 6⟩], 3, 6⟩

/-- The spec §8 graph-data example: records ("Jan",2024,paid_in=100),
("Jan",2024,paid_in=50), ("Feb",2024,paid_in=30) for user 1, in that
creation order. -/
def graphExampleState : AppState :=
  ⟨[sampleUser],
   [⟨1, 1, "Jan", 2024, 100, 0, 0, 0, 0, 0⟩,
    ⟨2, 1, "Jan", 2024, 50, 0, 0, 0, 0, 0⟩,
    ⟨3, 1, "Feb", 2024, 30, 0, 0, 0, 0, 0⟩],
   2, 4⟩

/-! ## Claims -/

/-- C1: a valid token whose role is not `admin` reaches the admin-only
handlers (GET /admin/users, POST /admin/records) and is rejected there
with Forbidden (403), while a missing or invalid token is rejected by
the middleware with Unauthorized (401) before the handler runs; the two
statuses are distinct. -/
theorem C1_admin_forbidden_vs_unauthorized
    (s : AppState) (ident : Identity) (b : RecordBody)
    (h : ident.role ≠ "admin") :
    (GET_admin_users (.valid ident) s).1.status = 403 ∧
    (POST_admin_records (.valid ident) s b).1.status = 403 ∧
    (GET_admin_users .missing s).1.status = 401 ∧
    (GET_admin_users .invalid s).1.status = 401 ∧
    (POST_admin_records .missing s b).1.status = 401 ∧
    (POST_admin_records .invalid s b).1.status = 401 ∧
    (403 : Nat) ≠ 401 := by
  have hb : (ident.role != "admin") = true := by
    simp [bne_iff_ne, h]
  refine ⟨?_, ?_, rfl, rfl, rfl, rfl, by decide⟩
  · simp [GET_admin_users, jwtRequired, get_all_users, hb]
  · simp [POST_admin_records, jwtRequired, admin_add_record, hb]

theorem C1_admin_forbidden_vs_unauthorized_witness :
    (GET_admin_users (.valid ⟨1, "user"⟩) sampleState).1.status = 403 ∧
    (GET_admin_users .missing sampleState).1.status = 401 ∧
    (POST_admin_records (.valid ⟨1, "user"⟩) sampleState sampleBody).1.status
      = 403 := by
  obtain ⟨h1, h2, h3, _, _, _, _⟩ :=
    C1_admin_forbidden_vs_unauthorized sampleState ⟨1, "user"⟩ sampleBody
      (by decide)
  exact ⟨h1, h3, h2⟩

/-- C2: every failing login — no user with the given email, or a stored
hash the password does not verify against — produces the identical
generic 401 "Invalid credentials" response, and leaves the store
untouched. -/
theorem C2_login_failure_uniform
    (checkPw : String → String → Bool) (s : AppState) (b : LoginBody)
    (h : (∀ u ∈ s.users, u.email ≠ b.email) ∨
         (∃ u, s.users.find? (fun u => u.email == b.email) = some u ∧
               checkPw u.password b.password = false)) :
    login checkPw s b = (⟨401, .msg "Invalid credentials"⟩, s) := by
  rcases h with h | ⟨u, hu, hc⟩
  · have hnone : s.users.find? (fun u => u.email == b.email) = none := by
      rw [List.find?_eq_none]
      intro u hu
      simpa using h u hu
    simp [login, hnone]
  · simp [login, hu, hc]

theorem C2_login_failure_uniform_witness :
    login sampleCheck sampleState ⟨"nobody@x.com", "pw"⟩
        = (⟨401, .msg "Invalid credentials"⟩, sampleState) ∧
    login sampleCheck sampleState ⟨"a@x.com", "wrong"⟩
        = (⟨401, .msg "Invalid credentials"⟩, sampleState) := by
  constructor
  · exact C2_login_failure_uniform sampleCheck sampleState ⟨"nobody@x.com", "pw"⟩
      (Or.inl (by decide))
  · exact C2_login_failure_uniform sampleCheck sampleState ⟨"a@x.com", "wrong"⟩
      (Or.inr ⟨sampleUser, by decide, by decide⟩)

/-- A row that does not satisfy the predicate survives `deleteFirst`. -/
theorem mem_deleteFirst_of_not (p : FinancialRecord → Bool)
    (l : List FinancialRecord) (a : FinancialRecord)
    (ha : a ∈ l) (hpa : p a = false) : a ∈ deleteFirst p l := by
  induction l with
  | nil => cases ha
  | cons x xs ih =>
    cases hx : p x with
    | true =>
        simp only [deleteFirst, hx, if_true]
        rcases List.mem_cons.mp ha with rfl | hmem
        · rw [hpa] at hx; cases hx
        · exact hmem
    | false =>
        simp only [deleteFirst, hx, Bool.false_eq_true, if_false]
        rcases List.mem_cons.mp ha with rfl | hmem
        · exact List.mem_cons_self a _
        · exact List.mem_cons_of_mem x (ih hmem)

/-- With pairwise-distinct primary keys, once the matching row is
deleted no row with that id and owner remains. -/
theorem deleteFirst_no_match (idv : Nat) (uid : Int)
    (l : List FinancialRecord)
    (hnd : (l.map (fun r => r.id)).Nodup) :
    ∀ a ∈ deleteFirst (fun r => r.id == idv && r.user_id == uid) l,
      ¬ (a.id = idv ∧ a.user_id = uid) := by
  induction l with
  | nil => intro a ha; cases ha
  | cons x xs ih =>
    rw [List.map_cons, List.nodup_cons] at hnd
    obtain ⟨hx_not, hnd'⟩ := hnd
    intro a ha hmatch
    cases hx : (x.id == idv && x.user_id == uid) with
    | true =>
        simp only [deleteFirst, hx, if_true] at ha
        have hxid : x.id = idv := by
          have := (Bool.and_eq_true _ _).mp hx
          exact beq_iff_eq.mp this.1
        apply hx_not
        rw [hxid, ← hmatch.1]
        exact List.mem_map_of_mem (fun r => r.id) ha
    | false =>
        simp only [deleteFirst, hx, Bool.false_eq_true, if_false] at ha
        rcases List.mem_cons.mp ha with rfl | hmem
        · rw [hmatch.1, hmatch.2] at hx
          simp at hx
        · exact ih hnd' a hmem hmatch

/-- C3: DELETE /records/{id} as user B deletes the record exactly when a
record with that id exists and is owned by B; otherwise it returns 404
with the store unchanged. The handler has no role exemption, so the same
holds for an admin: a record owned by A ≠ B survives B's attempt. -/
theorem C3_delete_only_owned (s : AppState) (ident : Identity) (idv : Nat)
    (hids : (s.records.map (fun r => r.id)).Nodup) :
    ((∃ r ∈ s.records, r.id = idv ∧ r.user_id = (ident.id : Int)) →
        (DELETE_record (.valid ident) s idv).1.status = 200 ∧
        (∀ r ∈ (DELETE_record (.valid ident) s idv).2.records,
            ¬ (r.id = idv ∧ r.user_id = (ident.id : Int))) ∧
        (∀ r ∈ s.records, ¬ (r.id = idv ∧ r.user_id = (ident.id : Int)) →
            r ∈ (DELETE_record (.valid ident) s idv).2.records)) ∧
    ((∀ r ∈ s.records, ¬ (r.id = idv ∧ r.user_id = (ident.id : Int))) →
        (DELETE_record (.valid ident) s idv).1 = ⟨404, .msg "Record not found"⟩ ∧
        (DELETE_record (.valid ident) s idv).2 = s) := by
  constructor
  · rintro ⟨r, hr, hrid, hruid⟩
    have hsome : (s.records.find?
        (fun r => r.id == idv && r.user_id == (ident.id : Int))).isSome := by
      rw [List.find?_isSome]
      exact ⟨r, hr, by simp [hrid, hruid]⟩
    obtain ⟨r0, hfind⟩ := Option.isSome_iff_exists.mp hsome
    refine ⟨?_, ?_, ?_⟩
    · simp [DELETE_record, jwtRequired, delete_record, hfind]
    · intro a ha
      simp only [DELETE_record, jwtRequired, delete_record, hfind] at ha
      exact deleteFirst_no_match idv (ident.id : Int) s.records hids a ha
    · intro a ha hna
      simp only [DELETE_record, jwtRequired, delete_record, hfind]
      refine mem_deleteFirst_of_not _ _ _ ha ?_
      by_contra hcon
      rw [Bool.not_eq_false, Bool.and_eq_true, beq_iff_eq, beq_iff_eq] at hcon
      exact hna hcon
  · intro hnone
    have hfind : s.records.find?
        (fun r => r.id == idv && r.user_id == (ident.id : Int)) = none := by
      rw [List.find?_eq_none]
      intro a ha
      have := hnone a ha
      rw [Bool.not_eq_true, Bool.and_eq_false_iff]
      by_contra hcon
      rw [not_or, Bool.not_eq_false, Bool.not_eq_false,
        beq_iff_eq, beq_iff_eq] at hcon
      exact this hcon
    constructor <;> simp [DELETE_record, jwtRequired, delete_record, hfind]

theorem C3_delete_only_owned_witness :
    (DELETE_record (.valid ⟨2, "user"⟩) deleteState 5).1
        = ⟨404, .msg "Record not found"⟩ ∧
    (DELETE_record (.valid ⟨2, "user"⟩) deleteState 5).2 = deleteState := by
  exact (C3_delete_only_owned deleteState ⟨2, "user"⟩ 5 (by decide)).2
    (by decide)

/-- `List.contains` agrees with membership for strings. -/
theorem contains_eq_mem_str (l : List String) (a : String) :
    l.contains a = true ↔ a ∈ l := by
  rw [List.contains_iff_exists_mem_beq]
  constructor
  · rintro ⟨b, hb, hab⟩
    rw [beq_iff_eq] at hab
    rwa [hab]
  · intro h
    exact ⟨a, h, by simp⟩

/-- A label produced by `specLabels` was not among the already-seen ones. -/
theorem mem_specLabels_not_seen (rs : List FinancialRecord) :
    ∀ (seen : List String) (l : String), l ∈ specLabels seen rs → l ∉ seen := by
  induction rs with
  | nil => intro seen l hl; cases hl
  | cons r rest ih =>
    intro seen l hl
    cases hc : seen.contains (monthYear r) with
    | true =>
        simp only [specLabels, hc, if_true] at hl
        exact ih seen l hl
    | false =>
        simp only [specLabels, hc, Bool.false_eq_true, if_false] at hl
        rcases List.mem_cons.mp hl with rfl | hmem
        · intro hmemseen
          have hct : seen.contains (monthYear r) = true :=
            (contains_eq_mem_str seen (monthYear r)).mpr hmemseen
          rw [hc] at hct
          cases hct
        · intro hs
          exact ih (seen ++ [monthYear r]) l hmem (List.mem_append_left _ hs)

/-- A record whose label differs contributes nothing to `firstPaidIn`. -/
theorem firstPaidIn_cons_ne (r : FinancialRecord) (rs : List FinancialRecord)
    (l : String) (h : monthYear r ≠ l) :
    firstPaidIn (r :: rs) l = firstPaidIn rs l := by
  rw [firstPaidIn, firstPaidIn, List.find?_cons_of_neg]
  simp [h]

/-- The record that introduces a label supplies its own `paid_in`. -/
theorem firstPaidIn_cons_self (r : FinancialRecord) (rs : List FinancialRecord) :
    firstPaidIn (r :: rs) (monthYear r) = r.paid_in := by
  rw [firstPaidIn, List.find?_cons_of_pos]
  · rfl
  · simp

/-- The source loop equals the spec formulation: it extends the two
accumulators with the not-yet-seen labels in order of first occurrence,
each paired with the `paid_in` of the first record carrying it. -/
theorem graphLoop_eq_spec (rs : List FinancialRecord) :
    ∀ (labels : List String) (values : List Int),
      graphLoop rs labels values =
        (labels ++ specLabels labels rs,
         values ++ (specLabels labels rs).map (firstPaidIn rs)) := by
  induction rs with
  | nil => intro labels values; simp [graphLoop, specLabels]
  | cons r rest ih =>
    intro labels values
    cases hc : labels.contains (monthYear r) with
    | true =>
        have hmap : (specLabels labels rest).map (firstPaidIn (r :: rest))
            = (specLabels labels rest).map (firstPaidIn rest) := by
          apply List.map_congr_left
          intro l hl
          have hlnot : l ∉ labels := mem_specLabels_not_seen rest labels l hl
          have hne : monthYear r ≠ l := by
            intro he
            apply hlnot
            rw [← he]
            exact (contains_eq_mem_str labels (monthYear r)).mp hc
          exact firstPaidIn_cons_ne r rest l hne
        simp only [graphLoop, specLabels, hc, if_true]
        rw [ih labels values, hmap]
    | false =>
        have hmap : (specLabels (labels ++ [monthYear r]) rest).map
              (firstPaidIn (r :: rest))
            = (specLabels (labels ++ [monthYear r]) rest).map
              (firstPaidIn rest) := by
          apply List.map_congr_left
          intro l hl
          have hlnot := mem_specLabels_not_seen rest (labels ++ [monthYear r]) l hl
          have hne : monthYear r ≠ l := by
            intro he
            apply hlnot
            rw [← he]
            exact List.mem_append_right _ (List.mem_singleton_self _)
          exact firstPaidIn_cons_ne r rest l hne
        simp only [graphLoop, specLabels, hc, Bool.false_eq_true, if_false]
        rw [ih (labels ++ [monthYear r]) (values ++ [r.paid_in]),
          List.map_cons, firstPaidIn_cons_self, ← hmap]
        simp [List.append_assoc]

/-- The labels emitted by the aggregation rule are pairwise distinct. -/
theorem specLabels_nodup (rs : List FinancialRecord) :
    ∀ seen : List String, (specLabels seen rs).Nodup := by
  induction rs with
  | nil => intro seen; simp [specLabels]
  | cons r rest ih =>
    intro seen
    cases hc : seen.contains (monthYear r) with
    | true =>
        simp only [specLabels, hc, if_true]
        exact ih seen
    | false =>
        simp only [specLabels, hc, Bool.false_eq_true, if_false]
        rw [List.nodup_cons]
        refine ⟨fun hmem => ?_, ih _⟩
        exact mem_specLabels_not_seen rest _ _ hmem
          (List.mem_append_right _ (List.mem_singleton_self _))

/-- C4: GET /graph-data walks the caller's records in stored order and
keeps, per month-year label, only the first record's `paid_in`
(first-occurrence-wins, not a sum): the loop taken from the source
coincides with the spec's rule, and the spec §8 example evaluates to
labels ["Jan 2024", "Feb 2024"] with values [100, 30]. -/
theorem C4_graph_data_first_occurrence :
    (GET_graph_data (.valid ⟨1, "user"⟩) graphExampleState).1
        = ⟨200, .graph ["Jan 2024", "Feb 2024"] [100, 30]⟩
    ∧ ∀ rs : List FinancialRecord,
        graphLoop rs [] [] =
          (specLabels [] rs, (specLabels [] rs).map (firstPaidIn rs)) := by
  constructor
  · decide
  · intro rs
    simpa using graphLoop_eq_spec rs [] []

/-- C10: every successful GET /graph-data response carries label and
value lists of equal length, with pairwise-distinct labels. -/
theorem C10_graph_labels_aligned_distinct (s : AppState) (ident : Identity) :
    ∃ L V, (GET_graph_data (.valid ident) s).1 = ⟨200, .graph L V⟩ ∧
      L.length = V.length ∧ L.Nodup := by
  have h := graphLoop_eq_spec
    (s.records.filter (fun r => r.user_id == (ident.id : Int))) [] []
  simp only [List.nil_append] at h
  refine ⟨specLabels []
      (s.records.filter (fun r => r.user_id == (ident.id : Int))),
    (specLabels []
        (s.records.filter (fun r => r.user_id == (ident.id : Int)))).map
      (firstPaidIn (s.records.filter (fun r => r.user_id == (ident.id : Int)))),
    ?_, ?_, ?_⟩
  · simp only [GET_graph_data, jwtRequired, get_graph_data, h]
  · rw [List.length_map]
  · exact specLabels_nodup _ _

/-- C5 counterexample: with "a@x.com" already registered, a second
registration for the same email is answered with HTTP 500 — a server
error, not the client error the claim requires (the route has no
handling for the unique-constraint violation raised at commit). -/
theorem C5_counterexample_duplicate_email_is_500 :
    (register sampleHash sampleState ⟨"Bob", "a@x.com", "pw", none⟩).1.status
        = 500 ∧
    ¬ (register sampleHash sampleState
        ⟨"Bob", "a@x.com", "pw", none⟩).1.status < 500 := by
  decide

/-- C5 (amended): a registration whose email is already present fails —
the unique-email constraint aborts the insert and the whole store,
including the first user's row, is unchanged — but the failure surfaces
as an unhandled server error (500), not as a structured client error. -/
theorem C5_duplicate_email_rejected (hashPw : String → String)
    (s : AppState) (b : RegisterBody)
    (h : ∃ u ∈ s.users, u.email = b.email) :
    (register hashPw s b).1.status = 500 ∧ (register hashPw s b).2 = s := by
  obtain ⟨u, hu, he⟩ := h
  have hany : s.users.any (fun u => u.email == b.email) = true := by
    rw [List.any_eq_true]
    exact ⟨u, hu, by simp [he]⟩
  constructor <;> simp [register, hany]

theorem C5_duplicate_email_rejected_witness :
    (register sampleHash sampleState
        ⟨"Carol", "a@x.com", "pw2", none⟩).1.status = 500 ∧
    (register sampleHash sampleState ⟨"Carol", "a@x.com", "pw2", none⟩).2
        = sampleState :=
  C5_duplicate_email_rejected sampleHash sampleState
    ⟨"Carol", "a@x.com", "pw2", none⟩ ⟨sampleUser, by decide, by decide⟩

/-- C6: the register route stores a client-supplied role verbatim — the
failing input role "superuser" creates a user whose role is neither
"user" nor "admin", contradicting the role column's own documentation
(the source comment reads: 'user' or 'admin'). -/
theorem C6_role_outside_enum :
    ∃ u ∈ (register sampleHash emptyState
        ⟨"Eve", "e@x.com", "pw", some "superuser"⟩).2.users,
      u.role ≠ "user" ∧ u.role ≠ "admin" := by
  refine ⟨⟨1, "Eve", "e@x.com", "hpw", "superuser"⟩, ?_, ?_, ?_⟩ <;> decide

/-- C7: POST /admin/records with an admin token inserts the
body-supplied user_id verbatim, never checking that such a user exists:
the call succeeds (201) and the store gains a record whose user_id
references no stored user. -/
theorem C7_admin_add_dangling_user_id
    (s : AppState) (ident : Identity) (b : RecordBody) (uid : Int)
    (hrole : ident.role = "admin") (hbuid : b.user_id = some uid)
    (hnouser : ∀ u ∈ s.users, (u.id : Int) ≠ uid) :
    (POST_admin_records (.valid ident) s b).1.status = 201 ∧
    ∃ r ∈ (POST_admin_records (.valid ident) s b).2.records,
      r.user_id = uid ∧
      ∀ u ∈ (POST_admin_records (.valid ident) s b).2.users,
        (u.id : Int) ≠ r.user_id := by
  have hb : (ident.role != "admin") = false := by simp [hrole]
  simp only [POST_admin_records, jwtRequired, admin_add_record, hb,
    Bool.false_eq_true, if_false, hbuid]
  refine ⟨trivial, _, List.mem_append_right _ (List.mem_singleton_self _),
    rfl, ?_⟩
  intro u hu
  exact hnouser u hu

theorem C7_admin_add_dangling_user_id_witness :
    (POST_admin_records (.valid ⟨1, "admin"⟩) sampleState sampleBody).1.status
        = 201 ∧
    ∃ r ∈ (POST_admin_records (.valid ⟨1, "admin"⟩) sampleState
        sampleBody).2.records,
      r.user_id = 7 ∧
      ∀ u ∈ (POST_admin_records (.valid ⟨1, "admin"⟩) sampleState
          sampleBody).2.users,
        (u.id : Int) ≠ r.user_id :=
  C7_admin_add_dangling_user_id sampleState ⟨1, "admin"⟩ sampleBody 7
    rfl rfl (by decide)

/-- C8: register → login → POST /records → GET /records, end to end:
login issues a token for the new user; the posted record is attributed
to the token identity (any user_id in the body is ignored — the stored
record's user_id is the caller's id 1) and GET /records echoes exactly
that record with every field unchanged. -/
theorem C8_end_to_end
    (hashPw : String → String) (checkPw : String → String → Bool)
    (name email pw : String) (b : RecordBody)
    (hcheck : checkPw (hashPw pw) pw = true) :
    (login checkPw (register hashPw emptyState ⟨name, email, pw, none⟩).2
        ⟨email, pw⟩).1
      = ⟨200, .tokenAndRole ⟨1, "user"⟩ "user"⟩ ∧
    (GET_records (.valid ⟨1, "user"⟩)
        (POST_records (.valid ⟨1, "user"⟩)
          (register hashPw emptyState ⟨name, email, pw, none⟩).2 b).2).1
      = ⟨200, .records [⟨1, b.month, b.year, b.paid_in, b.balance, b.loaned,
          b.repaid, b.shares, b.interest⟩]⟩ ∧
    ((POST_records (.valid ⟨1, "user"⟩)
        (register hashPw emptyState ⟨name, email, pw, none⟩).2 b).2).records.map
      (fun r => r.user_id) = [(1 : Int)] := by
  refine ⟨?_, ?_, ?_⟩
  · simp [register, emptyState, login, hcheck]
  · simp [register, emptyState, POST_records, jwtRequired, add_record,
      GET_records, get_records, recordOut]
  · simp [register, emptyState, POST_records, jwtRequired, add_record]

theorem C8_end_to_end_witness :
    (login sampleCheck (register sampleHash emptyState
        ⟨"Alice", "a@x.com", "pw", none⟩).2 ⟨"a@x.com", "pw"⟩).1
      = ⟨200, .tokenAndRole ⟨1, "user"⟩ "user"⟩ ∧
    (GET_records (.valid ⟨1, "user"⟩)
        (POST_records (.valid ⟨1, "user"⟩)
          (register sampleHash emptyState
            ⟨"Alice", "a@x.com", "pw", none⟩).2 sampleBody).2).1
      = ⟨200, .records [⟨1, "Jan", 2024, 100, 20, 3, 4, 5, 6⟩]⟩ := by
  obtain ⟨h1, h2, _⟩ := C8_end_to_end sampleHash sampleCheck
    "Alice" "a@x.com" "pw" sampleBody (by decide)
  exact ⟨h1, h2⟩

/-- C9: the register route takes the client-supplied role verbatim: the
new user is appended with role `data.get('role', 'user')`, so a body
carrying role "admin" self-registers an admin, and an absent role
defaults to "user". -/
theorem C9_register_role_verbatim (hashPw : String → String)
    (s : AppState) (b : RegisterBody)
    (hfresh : ∀ u ∈ s.users, u.email ≠ b.email) :
    (register hashPw s b).1.status = 201 ∧
    ∃ u, (register hashPw s b).2.users = s.users ++ [u] ∧
      u.role = b.role.getD "user" ∧
      (b.role = some "admin" → u.role = "admin") ∧
      (b.role = none → u.role = "user") := by
  have hany : s.users.any (fun u => u.email == b.email) = false := by
    rw [List.any_eq_false]
    intro u hu
    simp [hfresh u hu]
  simp only [register, hany, Bool.false_eq_true, if_false]
  exact ⟨trivial, _, rfl, rfl, fun h => by rw [h]; rfl, fun h => by rw [h]; rfl⟩

theorem C9_register_role_verbatim_witness :
    (register sampleHash emptyState
        ⟨"Mallory", "m@x.com", "pw", some "admin"⟩).1.status = 201 ∧
    ∃ u, (register sampleHash emptyState
        ⟨"Mallory", "m@x.com", "pw", some "admin"⟩).2.users
          = emptyState.users ++ [u] ∧
      u.role = (some "admin" : Option String).getD "user" ∧
      ((some "admin" : Option String) = some "admin" → u.role = "admin") ∧
      ((some "admin" : Option String) = none → u.role = "user") :=
  C9_register_role_verbatim sampleHash emptyState
    ⟨"Mallory", "m@x.com", "pw", some "admin"⟩
    (by intro u hu; cases hu)

end Knut
